import Mathlib

set_option maxRecDepth 4000

/-!
Shallow embedding of the product-detection content script (refined
version of `content.js`, the one using the named constants and
`el.closest`) together with the popup orchestration step that consumes
the record sequence.

The rendered document is modelled as a flat list of nodes in document
(pre-)order carrying the geometry, attribute and text data the script
reads; a parent link (always pointing to an earlier index) models the
element tree.  All string scanning is done on character lists so that
every definition reduces inside the kernel.
-/

/-- Whitespace recognised by JS `String.trim` and the regex class `\s`
(the members that can actually occur in scraped text). -/
def isJSpace (c : Char) : Bool :=
  c == ' ' || c == '\t' || c == '\n' || c == '\r' || c == '\x0b' ||
  c == '\x0c' || c == ' '

/-- ASCII lower-casing of a character list; the `/i` regex flag and
`toLowerCase` agree with this on every character the patterns contain. -/
def lowerL (l : List Char) : List Char := l.map Char.toLower

/-- Word character for the regex `\b` boundary (`[A-Za-z0-9_]`). -/
def isWordChar (c : Char) : Bool := c.isAlpha || c.isDigit || c == '_'

/-- Match a literal character sequence, returning the remainder. -/
def matchLit : List Char → List Char → Option (List Char)
  | [], cs => some cs
  | _ :: _, [] => none
  | l :: ls, c :: cs => if c == l then matchLit ls cs else none

def startsWithL (pre cs : List Char) : Bool := (matchLit pre cs).isSome

/-- `f` holds on some suffix of the list (the scan a non-anchored
regex `test` performs over starting positions). -/
def anySuffix (f : List Char → Bool) : List Char → Bool
  | [] => f []
  | c :: rest => f (c :: rest) || anySuffix f rest

/-- JS `String.includes`.  -/
def containsSubstrL (hay sub : List Char) : Bool :=
  anySuffix (fun cs => startsWithL sub cs) hay

/-- JS `String.trim`. -/
def trimL (l : List Char) : List Char :=
  ((l.dropWhile isJSpace).reverse.dropWhile isJSpace).reverse

def jsTrim (s : String) : String := String.mk (trimL s.data)

/-- JS `String.split` on a one-character separator. -/
def splitOnCharAux (sep : Char) : List Char → List Char → List (List Char)
  | [], acc => [acc.reverse]
  | c :: rest, acc =>
    if c == sep then acc.reverse :: splitOnCharAux sep rest []
    else splitOnCharAux sep rest (c :: acc)

def splitOnChar (sep : Char) (l : List Char) : List (List Char) :=
  splitOnCharAux sep l []

/-- Whitespace-separated tokens (how a CSS class selector reads the
`class` attribute). -/
def wsTokens : List Char → List Char → List (List Char)
  | [], acc => if acc.isEmpty then [] else [acc.reverse]
  | c :: rest, acc =>
    if isJSpace c then
      (if acc.isEmpty then wsTokens rest [] else acc.reverse :: wsTokens rest [])
    else wsTokens rest (c :: acc)

def classTokens (cls : List Char) : List (List Char) := wsTokens cls []

/-!  A tiny backtracking matcher: a pattern maps an input to the list
of all remainders after a match, so `[]` means no match.  Stars are
bounded by the input length, which is exact because every starred
body of the two source regexes consumes at least one character. -/

abbrev Mt := List Char → List (List Char)

def mFail : Mt := fun _ => []

def mEps : Mt := fun cs => [cs]

def mChar (p : Char → Bool) : Mt := fun cs =>
  match cs with
  | [] => []
  | c :: rest => if p c then [rest] else []

def mStr (lit : List Char) : Mt := fun cs => (matchLit lit cs).toList

def mSeq (a b : Mt) : Mt := fun cs => (a cs).flatMap b

def mAlt (a b : Mt) : Mt := fun cs => a cs ++ b cs

def mAlts (l : List Mt) : Mt := l.foldr mAlt mFail

def mOpt (a : Mt) : Mt := fun cs => a cs ++ [cs]

def mStarN (a : Mt) : Nat → Mt
  | 0 => mEps
  | n + 1 => fun cs => cs :: (a cs).flatMap (mStarN a n)

def mStar (a : Mt) : Mt := fun cs => mStarN a cs.length cs

def mDigit : Mt := mChar Char.isDigit

/-- `\d{1,3}` -/
def mD13 : Mt := mSeq mDigit (mOpt (mSeq mDigit (mOpt mDigit)))

/-- `\d{1,2}` -/
def mD12 : Mt := mSeq mDigit (mOpt mDigit)

/-- `\d{3}` -/
def mD3 : Mt := mSeq mDigit (mSeq mDigit mDigit)

/-- `\d+` -/
def mDigits1 : Mt := mSeq mDigit (mStar mDigit)

def mWsStar : Mt := mStar (mChar isJSpace)

/-- `\d{1,3}(?:[.,\s]\d{3})*(?:[.,]\d{1,2})?` — the numeric magnitude of
the price regex. -/
def priceNumber : Mt :=
  mSeq mD13
    (mSeq (mStar (mSeq (mChar (fun c => c == '.' || c == ',' || isJSpace c)) mD3))
      (mOpt (mSeq (mChar (fun c => c == '.' || c == ',')) mD12)))

/-- The currency symbol class `[\$€£¥₹₽₩₺]` of the refined regex. -/
def currencySymbols : List Char := ['$', '€', '£', '¥', '₹', '₽', '₩', '₺']

/-- The ISO-code alternation of the refined regex, lower-cased (the
regex carries the `i` flag). -/
def currencyCodes : List (List Char) :=
  ["usd", "eur", "gbp", "jpy", "aud", "cad", "chf", "cny", "sek", "nzd",
   "krw", "inr", "rub", "zar", "sgd", "try", "tl", "brl", "mxn", "idr",
   "dkk", "pln", "thb", "huf", "czk", "ils", "myr", "php", "ron", "ars",
   "clp", "cop", "egp", "hkd", "iqd", "jod", "kwd", "lbp", "mad", "mur",
   "ngn", "nok", "omr", "qar", "sar", "vnd"].map String.data

def mSym : Mt := mChar (fun c => currencySymbols.contains c)

def mCode : Mt := mAlts (currencyCodes.map mStr)

/-- `\b` read to the right of a position whose left character is a
digit (every match of the number and of the review keywords ends in a
word character, so the boundary reduces to this test). -/
def wbAfter : List Char → Bool
  | [] => true
  | c :: _ => !isWordChar c

/-- One attempt of the first `priceRegex` alternative
`(?:SYM|CODE\s*)\s*NUMBER\b` at the current position. -/
def priceAltOneAt (cs : List Char) : Bool :=
  (mSeq (mAlt mSym (mSeq mCode mWsStar)) (mSeq mWsStar priceNumber) cs).any wbAfter

/-- The second, fully anchored `priceRegex` alternative
`^NUMBER\s*(?:SYM|CODE)$`. -/
def priceAltTwoFull (cs : List Char) : Bool :=
  (mSeq priceNumber (mSeq mWsStar (mAlt mSym mCode)) cs).any List.isEmpty

/-- `priceRegex.test` on an already extracted text. -/
def priceTestL (l : List Char) : Bool :=
  anySuffix priceAltOneAt (lowerL l) || priceAltTwoFull (lowerL l)

def priceTest (s : String) : Bool := priceTestL s.data

/-- The keyword alternation of `reviewPattern`, lower-cased. -/
def reviewKeywordM : Mt := mAlts
  [mSeq (mStr "star".data) (mOpt (mChar (fun c => c == 's'))),
   mStr "rating".data,
   mSeq (mStr "review".data) (mOpt (mChar (fun c => c == 's'))),
   mSeq (mStr "out of ".data) mDigits1,
   mSeq (mStr "sur ".data) mDigits1,
   mSeq (mStr "from ".data) (mSeq mDigits1 (mOpt (mSeq (mChar (fun c => c == '.')) mDigits1))),
   mStr "customer reviews".data,
   mStr "overall score".data,
   mStr "average rating".data,
   mStr "wertung".data,
   mStr "beoordeling".data]

def reviewKwAt (cs : List Char) : Bool := (reviewKeywordM cs).any wbAfter

/-- Scan for `\bkeyword\b`; the flag records whether the previous
character was a non-word character (true at the start of the input).
Every keyword begins and ends with a word character, so the two `\b`
anchors reduce to the flag and to `wbAfter`. -/
def reviewKwScan : Bool → List Char → Bool
  | _, [] => false
  | prevNW, c :: rest =>
    (prevNW && reviewKwAt (c :: rest)) || reviewKwScan (!isWordChar c) rest

/-- The anchored ratio alternative `^\d(?:\.\d+)?\/\d$`. -/
def reviewRatioFull (cs : List Char) : Bool :=
  (mSeq mDigit
    (mSeq (mOpt (mSeq (mChar (fun c => c == '.')) mDigits1))
      (mSeq (mChar (fun c => c == '/')) mDigit)) cs).any List.isEmpty

/-- `reviewPattern.test`. -/
def reviewTestL (l : List Char) : Bool :=
  reviewKwScan true (lowerL l) || reviewRatioFull (lowerL l)

def reviewTest (s : String) : Bool := reviewTestL s.data

/-- `/^\d+$/.test` used on candidate titles. -/
def pureNumberL (l : List Char) : Bool := !l.isEmpty && l.all Char.isDigit

/-! ## The document model -/

/-- The data of one rendered node that the script reads. -/
structure VNode where
  tag : String
  attrs : List (String × String)
  text : String
  offsetWidth : Nat
  offsetHeight : Nat
  offsetParentNull : Bool
  naturalWidth : Nat
  naturalHeight : Nat
  parent : Option Nat
deriving DecidableEq, Repr

def defaultVNode : VNode := ⟨"", [], "", 0, 0, true, 0, 0, none⟩

instance : Inhabited VNode := ⟨defaultVNode⟩

/-- A document: nodes in document (pre-)order; each node's parent link
points to a strictly earlier index. -/
abbrev VDoc := List VNode

def elemAt (doc : VDoc) (i : Nat) : VNode := doc.getD i defaultVNode

def getAttr (e : VNode) (name : String) : Option String :=
  (e.attrs.find? (fun a => a.1 == name)).map (fun a => a.2)

/-- `getAttribute` squashed through JS falsiness: absent behaves as the
empty string wherever the script only tests truthiness. -/
def attrD (e : VNode) (name : String) : String := (getAttr e name).getD ""

def hasAttrB (e : VNode) (name : String) : Bool := (getAttr e name).isSome

def attrTruthy (e : VNode) (name : String) : Bool := attrD e name != ""

/-- `parentElement`; a malformed link (not strictly earlier) is treated
as absent so that every ancestor walk terminates. -/
def parentOf (doc : VDoc) (i : Nat) : Option Nat :=
  match (elemAt doc i).parent with
  | some p => if p < i then some p else none
  | none => none

/-- The first `fuel` ancestors of a node (nearest first). -/
def upChain (doc : VDoc) : Nat → Nat → List Nat
  | 0, _ => []
  | fuel + 1, i =>
    match parentOf doc i with
    | none => []
    | some p => p :: upChain doc fuel p

/-- The whole ancestor chain: `i + 1` steps of fuel are always enough
because parent indices strictly decrease. -/
def ancestorsOf (doc : VDoc) (i : Nat) : List Nat := upChain doc (i + 1) i

/-- DOM `a.contains(b)`: `b` is `a` itself or a descendant of `a`. -/
def containsNode (doc : VDoc) (a b : Nat) : Bool :=
  a == b || (ancestorsOf doc b).contains a

def isStrictDesc (doc : VDoc) (a j : Nat) : Bool := (ancestorsOf doc j).contains a

/-- `querySelectorAll` on a subtree: matching strict descendants in
document order. -/
def descendantsMatching (doc : VDoc) (a : Nat) (sel : VNode → Bool) : List Nat :=
  (List.range doc.length).filter (fun j => isStrictDesc doc a j && sel (elemAt doc j))

/-- CSS `[name*="sub"]`. -/
def attrValContains (e : VNode) (name sub : String) : Bool :=
  match getAttr e name with
  | some v => containsSubstrL v.data sub.data
  | none => false

/-- CSS `.tok`. -/
def hasClassToken (e : VNode) (tok : String) : Bool :=
  (classTokens (attrD e "class").data).contains tok.data

/-- The `reviewContainerSelectors` list. -/
def matchesReviewContainer (e : VNode) : Bool :=
  getAttr e "itemprop" == some "review" ||
  attrValContains e "class" "review-section" ||
  attrValContains e "id" "reviews" ||
  attrValContains e "class" "rating-summary" ||
  attrValContains e "class" "customer-reviews" ||
  attrValContains e "aria-label" "rating" ||
  attrValContains e "data-testid" "review" ||
  attrValContains e "data-qa" "review" ||
  hasClassToken e "reviews" || hasClassToken e "product-reviews" ||
  hasClassToken e "rating-stars" || hasClassToken e "star-rating" ||
  hasClassToken e "score"

/-- `el.closest(reviewContainerSelectors)` is non-null. -/
def closestReview (doc : VDoc) (i : Nat) : Bool :=
  (i :: ancestorsOf doc i).any (fun j => matchesReviewContainer (elemAt doc j))

/-- The candidate-scan selector
`span, div, p, strong, b, ins, a, [itemprop="price"], [data-price], [data-saleprice]`. -/
def matchesCandidateSel (e : VNode) : Bool :=
  e.tag == "span" || e.tag == "div" || e.tag == "p" || e.tag == "strong" ||
  e.tag == "b" || e.tag == "ins" || e.tag == "a" ||
  getAttr e "itemprop" == some "price" || hasAttrB e "data-price" ||
  hasAttrB e "data-saleprice"

/-- The title selector universe
`h1..h6, a[href], [role="heading"], [itemprop="name"], .product-title, .item-name`. -/
def matchesTitleSel (e : VNode) : Bool :=
  e.tag == "h1" || e.tag == "h2" || e.tag == "h3" || e.tag == "h4" ||
  e.tag == "h5" || e.tag == "h6" || (e.tag == "a" && hasAttrB e "href") ||
  getAttr e "role" == some "heading" || getAttr e "itemprop" == some "name" ||
  hasClassToken e "product-title" || hasClassToken e "item-name"

def itempropLowerHas (e : VNode) (sub : String) : Bool :=
  match getAttr e "itemprop" with
  | some v => containsSubstrL (lowerL v.data) sub.data
  | none => false

def semanticPriceAttr (e : VNode) : Bool :=
  hasAttrB e "data-price" || hasAttrB e "data-saleprice" || itempropLowerHas e "price"

def isReviewSemAttr (e : VNode) : Bool :=
  itempropLowerHas e "reviewrating" || itempropLowerHas e "ratingvalue" ||
  hasAttrB e "data-rating"

/-- The price-candidate filter applied to each node of the selector
universe (the body of the `potentialPriceElements` filter). -/
def elementFilter (doc : VDoc) (i : Nat) : Bool :=
  let e := elemAt doc i
  if e.offsetParentNull || decide (e.offsetWidth = 0) || decide (e.offsetHeight = 0) then false
  else
    let text := trimL e.text.data
    if decide (text.length = 0) || decide (50 < text.length) then false
    else if closestReview doc i then false
    else if isReviewSemAttr e then false
    else if reviewTestL text then false
    else if priceTestL text then true
    else semanticPriceAttr e

/-- The ordered candidate sequence. -/
def potentialPriceElements (doc : VDoc) : List Nat :=
  (List.range doc.length).filter
    (fun i => matchesCandidateSel (elemAt doc i) && elementFilter doc i)

/-! ## Container climbing -/

/-- The container size bounds
`offsetWidth < 100 || offsetHeight < 100 || offsetWidth > 1000 || offsetHeight > 1500`
negated. -/
def sizeOk (e : VNode) : Bool :=
  !(decide (e.offsetWidth < 100) || decide (e.offsetHeight < 100) ||
    decide (1000 < e.offsetWidth) || decide (1500 < e.offsetHeight))

/-- `img.src && !img.src.startsWith('data:image/gif;base64') && !img.src.includes('blank.gif')`. -/
def goodDirectSrc (e : VNode) : Bool :=
  attrD e "src" != "" &&
  !startsWithL "data:image/gif;base64".data (attrD e "src").data &&
  !containsSubstrL (attrD e "src").data "blank.gif".data

/-- The predicate of the image `find`. -/
def imgOk (e : VNode) : Bool :=
  !e.offsetParentNull && decide (60 < e.offsetWidth) && decide (60 < e.offsetHeight) &&
  (goodDirectSrc e || attrTruthy e "data-src" || attrTruthy e "data-lazyload" ||
   attrTruthy e "data-src" || attrTruthy e "srcset" ||
   (decide (50 < e.naturalWidth) && decide (50 < e.naturalHeight) &&
    !attrTruthy e "loading"))

def findImage (doc : VDoc) (a : Nat) : Option Nat :=
  (descendantsMatching doc a (fun e => e.tag == "img")).find?
    (fun j => imgOk (elemAt doc j))

/-- The title acceptance condition of the inner `for` loop. -/
def titleOk (doc : VDoc) (p t : Nat) : Bool :=
  let e := elemAt doc t
  let tt := trimL e.text.data
  !tt.isEmpty && decide (5 ≤ tt.length) && decide (tt.length ≤ 200) &&
  !containsNode doc t p &&
  !priceTestL tt && !pureNumberL tt && !reviewTestL tt &&
  !e.offsetParentNull && decide (0 < e.offsetWidth) && decide (0 < e.offsetHeight)

def potentialTitles (doc : VDoc) (a : Nat) : List Nat :=
  descendantsMatching doc a matchesTitleSel

/-- The `for … break` over candidate titles. -/
def titleLoop (doc : VDoc) (p : Nat) : List Nat → Option Nat
  | [] => none
  | t :: rest => if titleOk doc p t then some t else titleLoop doc p rest

def findTitle (doc : VDoc) (a p : Nat) : Option Nat :=
  titleLoop doc p (potentialTitles doc a)

/-- An ancestor on which the climb stops: unclaimed, within the size
bounds, and with a resolvable image and title in its subtree. -/
def qualify (doc : VDoc) (claimed : List Nat) (p a : Nat) : Bool :=
  !claimed.contains a && sizeOk (elemAt doc a) &&
  (findImage doc a).isSome && (findTitle doc a p).isSome

/-- The climb loop, transcribed with its mutable `image`/`title`
variables threaded through (`title` is only assigned in the iteration
that breaks). -/
def climbGo (doc : VDoc) (claimed : List Nat) (p : Nat) :
    Nat → Nat → Option Nat → Option Nat → Option (Nat × Nat × Nat)
  | 0, _, _, _ => none
  | fuel + 1, cur, img, ttl =>
    match parentOf doc cur with
    | none => none
    | some c =>
      if claimed.contains c then climbGo doc claimed p fuel c img ttl
      else if !sizeOk (elemAt doc c) then climbGo doc claimed p fuel c img ttl
      else
        let img2 := findImage doc c
        let ttl2 :=
          match img2 with
          | some _ =>
            match findTitle doc c p with
            | some t => some t
            | none => ttl
          | none => ttl
        match img2, ttl2 with
        | some im, some t => some (c, im, t)
        | _, _ => climbGo doc claimed p fuel c img2 ttl2

/-- The climb for one candidate: up to 10 ancestors starting at the
immediate parent. -/
def climb (doc : VDoc) (claimed : List Nat) (p : Nat) : Option (Nat × Nat × Nat) :=
  climbGo doc claimed p 10 p none none

/-! ## Record building and the whole pass -/

structure ProductRecord where
  title : String
  price : String
  imageUrl : String
deriving DecidableEq, Repr

/-- One emitted record together with the nodes it was built from. -/
structure PassEntry where
  containerIdx : Nat
  imgIdx : Nat
  titleIdx : Nat
  priceIdx : Nat
  record : ProductRecord
deriving DecidableEq, Repr

/-- JS `a || b` on strings. -/
def jsOr (a b : String) : String := if a == "" then b else a

/-- The `actualImageUrl` extraction, transcribed statement by
statement. -/
def resolveImageUrl (img : VNode) : String :=
  let u0 := attrD img "src"
  let u1 :=
    if u0 == "" || startsWithL "data:image/gif;base64".data u0.data ||
        containsSubstrL u0.data "blank.gif".data then
      jsOr (attrD img "data-src") (jsOr (attrD img "data-lazyload") (attrD img "data-src"))
    else u0
  let u2 :=
    if (u1 == "" || startsWithL "data:image/gif".data u1.data) &&
        attrD img "srcset" != "" then
      let parts := (splitOnChar ',' (attrD img "srcset").data).map
        (fun cs => splitOnChar ' ' (trimL cs))
      if decide (0 < parts.length) then String.mk ((parts.getLastD []).headD []) else u1
    else u1
  if u2 == "" || startsWithL "data:".data u2.data then "N/A" else u2

def actualImageUrl (doc : VDoc) (i : Nat) : String := resolveImageUrl (elemAt doc i)

/-- Processing of one candidate: claim the container and append the
record when the climb succeeds. -/
def passStep (doc : VDoc) (st : List PassEntry × List Nat) (p : Nat) :
    List PassEntry × List Nat :=
  match climb doc st.2 p with
  | none => st
  | some (c, im, t) =>
    (st.1 ++ [⟨c, im, t, p,
      ⟨jsTrim (elemAt doc t).text, jsTrim (elemAt doc p).text, actualImageUrl doc im⟩⟩],
     st.2 ++ [c])

/-- The whole detection pass: entry list and claimed-container set. -/
def runPassFull (doc : VDoc) : List PassEntry × List Nat :=
  (potentialPriceElements doc).foldl (passStep doc) ([], [])

/-- The record sequence the script returns. -/
def runPass (doc : VDoc) : List ProductRecord :=
  (runPassFull doc).1.map PassEntry.record

/-- The on-page notification: message and whether it uses the error
styling. -/
def passNotification (doc : VDoc) : String × Bool :=
  let n := (runPass doc).length
  if 0 < n then (toString n ++ " product(s) detected and highlighted!", false)
  else ("No products detected on this page.", true)

def reportLine (p : ProductRecord) : String :=
  "Title: " ++ p.title ++ "\n" ++ "Image: " ++ p.imageUrl ++ "\n" ++
  "Price: " ++ p.price ++ "\n\n"

def fileContent (l : List ProductRecord) : String :=
  l.foldl (fun acc p => acc ++ reportLine p) ""

/-- The popup branch consuming the records: status text and the report
offered for download (`none` when nothing is downloaded). -/
def popupHandle (products : List ProductRecord) : String × Option String :=
  if products.length = 0 then ("No products were detected.", none)
  else ("Downloaded " ++ toString products.length ++ " product(s)!",
    some (fileContent products))

/-! ## Spec-side definitions (for refinement claims) -/

/-- Modelled from the spec sentence of the title resolver: trimmed
length within the inclusive range [5,200], does not contain the price
candidate, text is not a price pattern, not purely numeric, not a
review pattern, visible with nonzero rendered area. -/
def titleAcceptSpec (doc : VDoc) (p t : Nat) : Bool :=
  let e := elemAt doc t
  let tt := trimL e.text.data
  decide (5 ≤ tt.length) && decide (tt.length ≤ 200) &&
  !containsNode doc t p &&
  !priceTestL tt && !pureNumberL tt && !reviewTestL tt &&
  !e.offsetParentNull && decide (0 < e.offsetWidth) && decide (0 < e.offsetHeight)

/-- The image-URL precedence exactly as the claim states it: (a) the
direct source if present and not a known placeholder (blank-gif or gif
data URI); (b) otherwise the lazy-load data attributes in the fixed
preference order; (c) otherwise the last entry of the responsive
source set; (d) otherwise the sentinel "N/A", also returned when the
value resolved by (a)-(c) is itself a data URI. -/
def claimImageUrl (img : VNode) : String :=
  let finalize := fun (v : String) =>
    if startsWithL "data:".data v.data then "N/A" else v
  let src := attrD img "src"
  if src != "" && !startsWithL "data:image/gif".data src.data &&
      !containsSubstrL src.data "blank.gif".data then finalize src
  else
    let lazy := jsOr (attrD img "data-src") (jsOr (attrD img "data-lazyload") (attrD img "data-src"))
    if lazy != "" then finalize lazy
    else
      let ss := attrD img "srcset"
      if ss != "" then
        let parts := (splitOnChar ',' ss.data).map (fun cs => splitOnChar ' ' (trimL cs))
        finalize (String.mk ((parts.getLastD []).headD []))
      else "N/A"

/-- The amended precedence, matching the code: (a) the direct source if
nonempty and neither a base64 gif data URI nor containing "blank.gif";
(b) otherwise the first nonempty of data-src, data-lazyload, data-src;
(c) the last srcset entry replaces the value when the value so far is
empty or starts with "data:image/gif" and srcset is nonempty; (d) "N/A"
when the final value is empty or starts with "data:". -/
def amendedImageUrl (img : VNode) : String :=
  let src := attrD img "src"
  let v1 :=
    if src != "" && !startsWithL "data:image/gif;base64".data src.data &&
        !containsSubstrL src.data "blank.gif".data then src
    else ((([attrD img "data-src", attrD img "data-lazyload", attrD img "data-src"]).find?
      (fun v => v != "")).getD "")
  let v2 :=
    if (v1 == "" || startsWithL "data:image/gif".data v1.data) &&
        attrD img "srcset" != "" then
      let parts := (splitOnChar ',' (attrD img "srcset").data).map
        (fun cs => splitOnChar ' ' (trimL cs))
      String.mk ((parts.getLastD []).headD [])
    else v1
  if v2 == "" || startsWithL "data:".data v2.data then "N/A" else v2

/-! ## Concrete fixture documents -/

/-- The happy-path card of §8 of the spec: oversized root, a 300×200
card holding an image, a heading and a price. -/
def happyDoc : VDoc :=
  [⟨"div", [], "Wireless Mouse $19.99", 1200, 2000, false, 0, 0, none⟩,
   ⟨"div", [], "Wireless Mouse $19.99", 300, 200, false, 0, 0, some 0⟩,
   ⟨"img", [("src", "a.jpg")], "", 120, 120, false, 200, 200, some 1⟩,
   ⟨"h2", [], "Wireless Mouse", 100, 20, false, 0, 0, some 1⟩,
   ⟨"span", [], "$19.99", 50, 20, false, 0, 0, some 1⟩]

/-- A card whose first candidate title (the anchor) contains the price
node; the later heading qualifies. -/
def selfRefDoc : VDoc :=
  [⟨"div", [], "x", 1200, 2000, false, 0, 0, none⟩,
   ⟨"div", [], "Great Product $9.99", 300, 200, false, 0, 0, some 0⟩,
   ⟨"img", [("src", "a.jpg")], "", 120, 120, false, 200, 200, some 1⟩,
   ⟨"a", [("href", "#")], "Great Product Details", 100, 20, false, 0, 0, some 1⟩,
   ⟨"span", [], "$9.99", 50, 20, false, 0, 0, some 3⟩,
   ⟨"h2", [], "Great Product", 100, 20, false, 0, 0, some 1⟩]

/-- The happy card with a lazy image whose data-src is a gif data URI
and whose srcset still resolves. -/
def lazyGifDoc : VDoc :=
  [⟨"div", [], "Wireless Mouse $19.99", 1200, 2000, false, 0, 0, none⟩,
   ⟨"div", [], "Wireless Mouse $19.99", 300, 200, false, 0, 0, some 0⟩,
   ⟨"img", [("data-src", "data:image/gif;base64,abc"),
            ("srcset", "small.jpg 1x, big.jpg 2x")], "", 120, 120, false, 0, 0, some 1⟩,
   ⟨"h2", [], "Wireless Mouse", 100, 20, false, 0, 0, some 1⟩,
   ⟨"span", [], "$19.99", 50, 20, false, 0, 0, some 1⟩]

/-- A price-shaped node inside an element with class "reviews". -/
def reviewCtxDoc : VDoc :=
  [⟨"div", [("class", "reviews")], "4.5 stars", 500, 300, false, 0, 0, none⟩,
   ⟨"span", [], "$12.99", 50, 20, false, 0, 0, some 0⟩]

/-- A document with no price-shaped node at all. -/
def noPriceDoc : VDoc :=
  [⟨"img", [("src", "a.jpg")], "", 100, 100, false, 200, 200, none⟩]

/-- A lone visible span whose trimmed text is "$12.99". -/
def acceptDoc : VDoc :=
  [⟨"span", [], " $12.99 ", 50, 20, false, 0, 0, none⟩]

/-- A lone visible span whose trimmed text is "4.5/5". -/
def rejectDoc : VDoc :=
  [⟨"span", [], "4.5/5", 50, 20, false, 0, 0, none⟩]

/-! ## Helper lemmas -/

theorem titleLoop_eq_find (doc : VDoc) (p : Nat) (l : List Nat) :
    titleLoop doc p l = l.find? (titleOk doc p) := by
  induction l with
  | nil => rfl
  | cons t rest ih =>
    by_cases h : titleOk doc p t
    · rw [titleLoop, if_pos h, List.find?_cons_of_pos _ h]
    · rw [titleLoop, if_neg h, List.find?_cons_of_neg _ h, ih]

theorem titleOk_eq_titleAcceptSpec (doc : VDoc) (p t : Nat) :
    titleOk doc p t = titleAcceptSpec doc p t := by
  simp only [titleOk, titleAcceptSpec]
  cases h : trimL (elemAt doc t).text.data with
  | nil => simp [h]
  | cons c cs => simp [h]

theorem climbGo_eq (doc : VDoc) (claimed : List Nat) (p : Nat) :
    ∀ (fuel cur : Nat) (img : Option Nat),
      climbGo doc claimed p fuel cur img none =
        ((upChain doc fuel cur).find? (qualify doc claimed p)).map
          (fun a => (a, (findImage doc a).getD 0, (findTitle doc a p).getD 0)) := by
  intro fuel
  induction fuel with
  | zero => intro cur img; rfl
  | succ n ih =>
    intro cur img
    rw [climbGo, upChain]
    cases hp : parentOf doc cur with
    | none => rfl
    | some c =>
      by_cases hcl : claimed.contains c = true
      · have hq : qualify doc claimed p c = false := by unfold qualify; rw [hcl]; rfl
        simp only [hcl, if_true]
        rw [List.find?_cons_of_neg _ (by simp [hq]), ih]
      · have hcl2 : claimed.contains c = false := by simpa using hcl
        simp only [hcl2, Bool.false_eq_true, if_false]
        by_cases hsz : sizeOk (elemAt doc c) = true
        · simp only [hsz, Bool.not_true, Bool.false_eq_true, if_false]
          cases him : findImage doc c with
          | none =>
            have hq : qualify doc claimed p c = false := by simp [qualify, him]
            rw [List.find?_cons_of_neg _ (by simp [hq])]
            simpa [him] using ih c none
          | some im =>
            cases hti : findTitle doc c p with
            | some t =>
              have hq : qualify doc claimed p c = true := by
                unfold qualify; rw [hcl2, hsz, him, hti]; rfl
              rw [List.find?_cons_of_pos _ hq]
              simp [him, hti]
            | none =>
              have hq : qualify doc claimed p c = false := by simp [qualify, hti]
              rw [List.find?_cons_of_neg _ (by simp [hq])]
              simpa [him, hti] using ih c (some im)
        · have hsz2 : sizeOk (elemAt doc c) = false := by simpa using hsz
          have hq : qualify doc claimed p c = false := by simp [qualify, hsz2]
          simp only [hsz2, Bool.not_false, if_true]
          rw [List.find?_cons_of_neg _ (by simp [hq]), ih]

theorem climb_eq (doc : VDoc) (claimed : List Nat) (p : Nat) :
    climb doc claimed p =
      ((upChain doc 10 p).find? (qualify doc claimed p)).map
        (fun a => (a, (findImage doc a).getD 0, (findTitle doc a p).getD 0)) :=
  climbGo_eq doc claimed p 10 p none

theorem climb_some_qualify (doc : VDoc) (claimed : List Nat) (p c im t : Nat)
    (h : climb doc claimed p = some (c, im, t)) :
    qualify doc claimed p c = true := by
  rw [climb_eq] at h
  obtain ⟨a, ha, hfa⟩ := Option.map_eq_some'.mp h
  obtain ⟨rfl, -, -⟩ : a = c ∧ (findImage doc a).getD 0 = im ∧ (findTitle doc a p).getD 0 = t := by
    simpa using hfa
  exact List.find?_some ha

/-- Everything the claims need about each emitted entry. -/
def EntryOk (doc : VDoc) (e : PassEntry) : Prop :=
  sizeOk (elemAt doc e.containerIdx) = true ∧
  elementFilter doc e.priceIdx = true ∧
  e.record.price = jsTrim (elemAt doc e.priceIdx).text ∧
  e.record.title = jsTrim (elemAt doc e.titleIdx).text ∧
  e.record.imageUrl = resolveImageUrl (elemAt doc e.imgIdx)

theorem qualify_not_mem (doc : VDoc) (claimed : List Nat) (p a : Nat)
    (h : qualify doc claimed p a = true) : a ∉ claimed := by
  simp only [qualify, Bool.and_eq_true, Bool.not_eq_true'] at h
  simpa using h.1.1.1

theorem qualify_sizeOk (doc : VDoc) (claimed : List Nat) (p a : Nat)
    (h : qualify doc claimed p a = true) : sizeOk (elemAt doc a) = true := by
  simp only [qualify, Bool.and_eq_true] at h
  exact h.1.1.2

theorem passStep_inv (doc : VDoc) (st : List PassEntry × List Nat) (q : Nat)
    (hq : elementFilter doc q = true)
    (h1 : st.2 = st.1.map PassEntry.containerIdx) (h2 : st.2.Nodup)
    (h3 : ∀ e ∈ st.1, EntryOk doc e) :
    (passStep doc st q).2 = (passStep doc st q).1.map PassEntry.containerIdx ∧
    (passStep doc st q).2.Nodup ∧
    (∀ e ∈ (passStep doc st q).1, EntryOk doc e) := by
  cases hc : climb doc st.2 q with
  | none => simp only [passStep, hc]; exact ⟨h1, h2, h3⟩
  | some r =>
    obtain ⟨c, im, t⟩ := r
    have hqual := climb_some_qualify doc st.2 q c im t hc
    have hmem := qualify_not_mem doc st.2 q c hqual
    refine ⟨?_, ?_, ?_⟩
    · simp only [passStep, hc]
      simp [h1]
    · simp only [passStep, hc]
      rw [List.nodup_append]
      exact ⟨h2, List.nodup_singleton c, by simpa using hmem⟩
    · intro e he
      simp only [passStep, hc, List.mem_append, List.mem_singleton] at he
      cases he with
      | inl hold => exact h3 e hold
      | inr hnew =>
        subst hnew
        exact ⟨qualify_sizeOk doc st.2 q c hqual, hq, rfl, rfl, rfl⟩

theorem passFold_inv (doc : VDoc) (l : List Nat) :
    ∀ (st : List PassEntry × List Nat),
      (∀ q ∈ l, elementFilter doc q = true) →
      st.2 = st.1.map PassEntry.containerIdx → st.2.Nodup →
      (∀ e ∈ st.1, EntryOk doc e) →
      ((l.foldl (passStep doc) st).2 =
        (l.foldl (passStep doc) st).1.map PassEntry.containerIdx ∧
       (l.foldl (passStep doc) st).2.Nodup ∧
       (∀ e ∈ (l.foldl (passStep doc) st).1, EntryOk doc e)) := by
  induction l with
  | nil => intro st _ h1 h2 h3; exact ⟨h1, h2, h3⟩
  | cons q rest ih =>
    intro st hq h1 h2 h3
    rw [List.foldl_cons]
    obtain ⟨g1, g2, g3⟩ :=
      passStep_inv doc st q (hq q (List.mem_cons_self q rest)) h1 h2 h3
    exact ih (passStep doc st q) (fun x hx => hq x (List.mem_cons_of_mem _ hx)) g1 g2 g3

theorem mem_candidates_filter (doc : VDoc) (q : Nat)
    (h : q ∈ potentialPriceElements doc) : elementFilter doc q = true := by
  rw [potentialPriceElements] at h
  exact (Bool.and_eq_true_iff.mp (List.mem_filter.mp h).2).2

theorem runPassFull_inv (doc : VDoc) :
    (runPassFull doc).2 = (runPassFull doc).1.map PassEntry.containerIdx ∧
    (runPassFull doc).2.Nodup ∧
    (∀ e ∈ (runPassFull doc).1, EntryOk doc e) := by
  exact passFold_inv doc (potentialPriceElements doc) ([], [])
    (fun q hq => mem_candidates_filter doc q hq) rfl List.nodup_nil
    (fun e he => absurd he (List.not_mem_nil e))

theorem splitOnCharAux_ne_nil (sep : Char) :
    ∀ (l acc : List Char), splitOnCharAux sep l acc ≠ [] := by
  intro l
  induction l with
  | nil => intro acc; simp [splitOnCharAux]
  | cons c rest ih =>
    intro acc
    rw [splitOnCharAux]
    split
    · simp
    · exact ih (c :: acc)

theorem srcsetParts_pos (s : String) :
    0 < ((splitOnChar ',' s.data).map (fun cs => splitOnChar ' ' (trimL cs))).length := by
  rw [List.length_map]
  exact List.length_pos.mpr (splitOnCharAux_ne_nil ',' s.data [])

theorem jsOr_eq_find (a b c : String) :
    jsOr a (jsOr b c) = (([a, b, c].find? (fun v => v != "")).getD "") := by
  have f : ∀ x : String, ¬ x = "" → (x != "") = true := by
    intro x hx
    simpa [bne_iff_ne] using hx
  have g : (("" : String) != "") = false := by decide
  by_cases ha : a = "" <;> by_cases hb : b = "" <;> by_cases hc : c = "" <;>
    simp [jsOr, ha, hb, hc, f, g, List.find?]

theorem resolve_eq_amended (img : VNode) :
    resolveImageUrl img = amendedImageUrl img := by
  simp only [resolveImageUrl, amendedImageUrl, jsOr_eq_find,
    decide_eq_true_eq, srcsetParts_pos, if_true]
  cases hb1 : attrD img "src" == "" <;>
    cases hb2 : startsWithL "data:image/gif;base64".data (attrD img "src").data <;>
      cases hb3 : containsSubstrL (attrD img "src").data "blank.gif".data <;>
        simp [hb1, hb2, hb3, bne]

theorem qualify_findTitle (doc : VDoc) (claimed : List Nat) (p a : Nat)
    (h : qualify doc claimed p a = true) : (findTitle doc a p).isSome = true := by
  simp only [qualify, Bool.and_eq_true] at h
  exact h.2

theorem titleOk_no_contain (doc : VDoc) (p t : Nat) (h : titleOk doc p t = true) :
    containsNode doc t p = false := by
  by_contra hc
  have hc' : containsNode doc t p = true := by simpa using hc
  simp only [titleOk] at h
  simp [hc'] at h

theorem filter_false_of_closest (doc : VDoc) (i : Nat)
    (h : closestReview doc i = true) : elementFilter doc i = false := by
  simp only [elementFilter]
  split
  · rfl
  · split
    · rfl
    · rfl

theorem filter_false_of_review (doc : VDoc) (i : Nat)
    (h : reviewTestL (trimL (elemAt doc i).text.data) = true) :
    elementFilter doc i = false := by
  simp only [elementFilter]
  split
  · rfl
  · split
    · rfl
    · split
      · rfl
      · split
        · rfl
        · rfl

theorem filter_true_conditions (doc : VDoc) (i : Nat)
    (h1 : (elemAt doc i).offsetParentNull = false)
    (h2 : ¬ (elemAt doc i).offsetWidth = 0)
    (h3 : ¬ (elemAt doc i).offsetHeight = 0)
    (h4 : ¬ (trimL (elemAt doc i).text.data).length = 0)
    (h5 : ¬ 50 < (trimL (elemAt doc i).text.data).length)
    (h6 : closestReview doc i = false)
    (h7 : isReviewSemAttr (elemAt doc i) = false)
    (h8 : reviewTestL (trimL (elemAt doc i).text.data) = false)
    (h9 : priceTestL (trimL (elemAt doc i).text.data) = true) :
    elementFilter doc i = true := by
  simp only [elementFilter]
  rw [h1, h6, h7, h8, h9, decide_eq_false h2, decide_eq_false h3,
    decide_eq_false h4, decide_eq_false h5]
  rfl

theorem elementFilter_text_bounds (doc : VDoc) (i : Nat)
    (h : elementFilter doc i = true) :
    1 ≤ (trimL (elemAt doc i).text.data).length ∧
    (trimL (elemAt doc i).text.data).length ≤ 50 := by
  simp only [elementFilter] at h
  split at h
  · exact absurd h (by simp)
  · split at h
    · exact absurd h (by simp)
    · rename_i h1 h2
      simp at h2
      exact ⟨List.length_pos.mpr h2.1, h2.2⟩

/-! ## Claim theorems -/

/-- Claim C1: in any pass the containers of distinct records are
distinct (the claimed set is exactly the emitted container list and is
duplicate-free), and the climb never selects a container that is
already in the claimed set. -/
theorem containers_unique (doc : VDoc) :
    ((runPassFull doc).1.map PassEntry.containerIdx).Nodup ∧
    (∀ (claimed : List Nat) (p c im t : Nat),
      climb doc claimed p = some (c, im, t) → c ∉ claimed) := by
  obtain ⟨h1, h2, -⟩ := runPassFull_inv doc
  refine ⟨by rw [← h1]; exact h2, ?_⟩
  intro claimed p c im t hc
  exact qualify_not_mem doc claimed p c (climb_some_qualify doc claimed p c im t hc)

/-- Claim C1 witness at the happy-path document with container 1
already claimed. -/
theorem containers_unique_witness :
    climb happyDoc [0] 4 = some (1, 2, 3) ∧ (1 : Nat) ∉ ([0] : List Nat) :=
  ⟨by decide, (containers_unique happyDoc).2 [0] 4 1 2 3 (by decide)⟩

/-- Claim C2: the price classifier accepts "$12.99", "19,99 €" and
"1.234,56 EUR" (price pattern matches, review pattern does not) and
rejects "4.5 out of 5 stars" and "4.5/5" (review pattern matches); at
the node level a visible node with one of the accepted trimmed texts
(outside review context) passes the candidate filter, and a node with
one of the rejected texts always fails it, the review pattern being
consulted before the price pattern. -/
theorem price_pattern_examples :
    (priceTest "$12.99" = true ∧ reviewTest "$12.99" = false) ∧
    (priceTest "19,99 €" = true ∧ reviewTest "19,99 €" = false) ∧
    (priceTest "1.234,56 EUR" = true ∧ reviewTest "1.234,56 EUR" = false) ∧
    reviewTest "4.5 out of 5 stars" = true ∧ reviewTest "4.5/5" = true ∧
    (∀ (doc : VDoc) (i : Nat),
      (elemAt doc i).offsetParentNull = false →
      ¬ (elemAt doc i).offsetWidth = 0 → ¬ (elemAt doc i).offsetHeight = 0 →
      closestReview doc i = false → isReviewSemAttr (elemAt doc i) = false →
      (trimL (elemAt doc i).text.data = "$12.99".data ∨
       trimL (elemAt doc i).text.data = "19,99 €".data ∨
       trimL (elemAt doc i).text.data = "1.234,56 EUR".data) →
      elementFilter doc i = true) ∧
    (∀ (doc : VDoc) (i : Nat),
      (trimL (elemAt doc i).text.data = "4.5 out of 5 stars".data ∨
       trimL (elemAt doc i).text.data = "4.5/5".data) →
      elementFilter doc i = false) := by
  refine ⟨⟨by decide, by decide⟩, ⟨by decide, by decide⟩, ⟨by decide, by decide⟩,
    by decide, by decide, ?_, ?_⟩
  · intro doc i h1 h2 h3 h4 h5 h6
    rcases h6 with h | h | h <;>
      exact filter_true_conditions doc i h1 h2 h3
        (by rw [h]; decide) (by rw [h]; decide) h4 h5
        (by rw [h]; decide) (by rw [h]; decide)
  · intro doc i h
    rcases h with h | h <;>
      exact filter_false_of_review doc i (by rw [h]; decide)

/-- Claim C2 witness on two one-node fixtures. -/
theorem price_pattern_examples_witness :
    elementFilter acceptDoc 0 = true ∧ elementFilter rejectDoc 0 = false := by
  constructor
  · exact price_pattern_examples.2.2.2.2.2.1 acceptDoc 0 (by decide) (by decide)
      (by decide) (by decide) (by decide) (Or.inl (by decide))
  · exact price_pattern_examples.2.2.2.2.2.2 rejectDoc 0 (Or.inr (by decide))

/-- Claim C3: the climb visits at most 10 ancestors starting at the
candidate's immediate parent; the container is exactly the first
visited ancestor that is unclaimed, within the size bounds, and with a
resolvable image and title (so climbing stops at it), and when no such
ancestor exists among the visited ones the candidate changes nothing
(no record, no error). -/
theorem climb_first_qualifying (doc : VDoc) (claimed : List Nat) (p : Nat) :
    (climb doc claimed p).map (fun r => r.1) =
      (upChain doc 10 p).find? (qualify doc claimed p) ∧
    (∀ st : List PassEntry × List Nat,
      (upChain doc 10 p).find? (qualify doc st.2 p) = none →
      passStep doc st p = st) := by
  constructor
  · rw [climb_eq]
    cases hfind : (upChain doc 10 p).find? (qualify doc claimed p) <;> simp [hfind]
  · intro st h
    have hc : climb doc st.2 p = none := by rw [climb_eq, h]; rfl
    simp [passStep, hc]

/-- Claim C3 witness: a candidate with no qualifying ancestor produces
no record. -/
theorem climb_first_qualifying_witness :
    (upChain acceptDoc 10 0).find? (qualify acceptDoc ([] : List Nat) 0) = none ∧
    passStep acceptDoc ([], []) 0 = ([], []) :=
  ⟨by decide, (climb_first_qualifying acceptDoc [] 0).2 ([], []) (by decide)⟩

/-- Claim C4: the container of every emitted record is at least 100px
wide and at most 1500px tall, so an undersized or overtall node is
never selected as a container. -/
theorem container_size_bounds (doc : VDoc) (e : PassEntry)
    (h : e ∈ (runPassFull doc).1) :
    100 ≤ (elemAt doc e.containerIdx).offsetWidth ∧
    (elemAt doc e.containerIdx).offsetHeight ≤ 1500 := by
  obtain ⟨-, -, h3⟩ := runPassFull_inv doc
  have hs := (h3 e h).1
  simp [sizeOk] at hs
  omega

/-- Claim C4 witness at the happy-path document. -/
theorem container_size_bounds_witness :
    (⟨1, 2, 3, 4, ⟨"Wireless Mouse", "$19.99", "a.jpg"⟩⟩ : PassEntry) ∈
      (runPassFull happyDoc).1 ∧
    100 ≤ (elemAt happyDoc 1).offsetWidth ∧
    (elemAt happyDoc 1).offsetHeight ≤ 1500 :=
  ⟨by decide, container_size_bounds happyDoc
    ⟨1, 2, 3, 4, ⟨"Wireless Mouse", "$19.99", "a.jpg"⟩⟩ (by decide)⟩

/-- Claim C5: a chosen title never contains the price candidate (a
containing title is skipped even if its text qualifies), the scan is
the first match in document order over the candidate titles, and when
no title qualifies the ancestor never becomes the container (the climb
proceeds). -/
theorem title_anti_self_reference (doc : VDoc) (a p : Nat) :
    (∀ t, findTitle doc a p = some t → containsNode doc t p = false) ∧
    findTitle doc a p = (potentialTitles doc a).find? (titleOk doc p) ∧
    (findTitle doc a p = none →
      ∀ (claimed : List Nat) (c im t : Nat),
        climb doc claimed p = some (c, im, t) → c ≠ a) := by
  refine ⟨?_, titleLoop_eq_find doc p (potentialTitles doc a), ?_⟩
  · intro t ht
    have hfind : (potentialTitles doc a).find? (titleOk doc p) = some t := by
      rw [← titleLoop_eq_find]
      exact ht
    exact titleOk_no_contain doc p t (List.find?_some hfind)
  · intro hnone claimed c im t hclimb hca
    subst hca
    have hq := climb_some_qualify doc claimed p c im t hclimb
    have hsome := qualify_findTitle doc claimed p c hq
    rw [hnone] at hsome
    simp at hsome

/-- Claim C5 witness: in the self-reference fixture the anchor (first
candidate title) contains the price node and the later heading is
chosen. -/
theorem title_anti_self_reference_witness :
    findTitle selfRefDoc 1 4 = some 5 ∧ containsNode selfRefDoc 5 4 = false :=
  ⟨by decide, (title_anti_self_reference selfRefDoc 1 4).1 5 (by decide)⟩

/-- Claim C6 counterexample: with an image whose direct source is
absent, whose data-src is a gif data URI and whose srcset resolves,
the code emits the srcset entry "big.jpg" while the claimed precedence
(resolve (b), then N/A since the value is a data URI) yields "N/A". -/
theorem image_url_claim_counterexample :
    (runPassFull lazyGifDoc).1.map (fun e => e.imgIdx) = [2] ∧
    runPass lazyGifDoc = [⟨"Wireless Mouse", "$19.99", "big.jpg"⟩] ∧
    claimImageUrl (elemAt lazyGifDoc 2) = "N/A" ∧
    ("big.jpg" : String) ≠ "N/A" :=
  ⟨by decide, by decide, by decide, by decide⟩

/-- Claim C6 (amended): the image URL of every record follows the
amended precedence: direct source unless empty, a base64 gif data URI
or a blank.gif URL; otherwise the first nonempty lazy-load attribute
of data-src, data-lazyload, data-src; the last srcset entry replacing
an empty or gif-data-URI value when srcset is nonempty; "N/A" when the
final value is empty or any data URI. -/
theorem image_url_resolution_amended (doc : VDoc) (e : PassEntry)
    (h : e ∈ (runPassFull doc).1) :
    e.record.imageUrl = amendedImageUrl (elemAt doc e.imgIdx) := by
  obtain ⟨-, -, h3⟩ := runPassFull_inv doc
  rw [(h3 e h).2.2.2.2]
  exact resolve_eq_amended (elemAt doc e.imgIdx)

/-- Claim C6 (amended) witness at the lazy-gif document. -/
theorem image_url_resolution_amended_witness :
    (⟨1, 2, 3, 4, ⟨"Wireless Mouse", "$19.99", "big.jpg"⟩⟩ : PassEntry) ∈
      (runPassFull lazyGifDoc).1 ∧
    ("big.jpg" : String) = amendedImageUrl (elemAt lazyGifDoc 2) :=
  ⟨by decide, image_url_resolution_amended lazyGifDoc
    ⟨1, 2, 3, 4, ⟨"Wireless Mouse", "$19.99", "big.jpg"⟩⟩ (by decide)⟩

/-- Claim C7: a node inside (or equal to) an element matching the
review-container selector set is rejected by the candidate filter, is
not a candidate, and no record is built from it. -/
theorem review_context_rejected (doc : VDoc) (i : Nat)
    (h : closestReview doc i = true) :
    elementFilter doc i = false ∧ i ∉ potentialPriceElements doc ∧
    (∀ e ∈ (runPassFull doc).1, e.priceIdx ≠ i) := by
  have hf := filter_false_of_closest doc i h
  refine ⟨hf, ?_, ?_⟩
  · intro hmem
    have hm := mem_candidates_filter doc i hmem
    rw [hf] at hm
    exact absurd hm (by decide)
  · intro e he heq
    obtain ⟨-, -, h3⟩ := runPassFull_inv doc
    have hft := (h3 e he).2.1
    rw [heq, hf] at hft
    exact absurd hft (by decide)

/-- Claim C7 witness: a price span inside a class="reviews" element is
filtered out. -/
theorem review_context_rejected_witness :
    closestReview reviewCtxDoc 1 = true ∧ elementFilter reviewCtxDoc 1 = false :=
  ⟨by decide, (review_context_rejected reviewCtxDoc 1 (by decide)).1⟩

/-- Claim C8: within a container the title resolver accepts exactly
the first candidate, in document order over the title selector
universe, satisfying the spec's acceptance predicate (length in
[5,200], not containing the price candidate, not a price pattern, not
purely numeric, not a review pattern, visible with nonzero area). -/
theorem title_resolver_first_match (doc : VDoc) (a p : Nat) :
    findTitle doc a p = (potentialTitles doc a).find? (titleAcceptSpec doc p) := by
  have h : titleOk doc p = titleAcceptSpec doc p :=
    funext (fun t => titleOk_eq_titleAcceptSpec doc p t)
  rw [← h]
  exact titleLoop_eq_find doc p (potentialTitles doc a)

/-- Claim C9: when no node passes the candidate filter the pass
returns no records, shows the "no products" notification, and the
popup reports "No products were detected." without offering a
download. -/
theorem empty_input_no_products (doc : VDoc)
    (h : potentialPriceElements doc = []) :
    runPass doc = [] ∧
    passNotification doc = ("No products detected on this page.", true) ∧
    popupHandle (runPass doc) = ("No products were detected.", none) := by
  have hr : runPass doc = [] := by
    rw [runPass, runPassFull, h]
    rfl
  refine ⟨hr, ?_, ?_⟩
  · simp [passNotification, hr]
  · simp [popupHandle, hr]

/-- Claim C9 witness on a document with a single image node. -/
theorem empty_input_no_products_witness :
    potentialPriceElements noPriceDoc = [] ∧
    runPass noPriceDoc = [] ∧
    passNotification noPriceDoc = ("No products detected on this page.", true) ∧
    popupHandle (runPass noPriceDoc) = ("No products were detected.", none) :=
  ⟨by decide, empty_input_no_products noPriceDoc (by decide)⟩

/-- Claim C10: every record's price field is the trimmed text of its
price candidate node, nonempty and at most 50 characters long. -/
theorem record_price_bounds (doc : VDoc) (e : PassEntry)
    (h : e ∈ (runPassFull doc).1) :
    e.record.price = jsTrim (elemAt doc e.priceIdx).text ∧
    1 ≤ e.record.price.length ∧ e.record.price.length ≤ 50 := by
  obtain ⟨-, -, h3⟩ := runPassFull_inv doc
  obtain ⟨-, hf, hp, -, -⟩ := h3 e h
  obtain ⟨hb1, hb2⟩ := elementFilter_text_bounds doc e.priceIdx hf
  refine ⟨hp, ?_, ?_⟩
  · rw [hp]
    exact hb1
  · rw [hp]
    exact hb2

/-- Claim C10 witness at the happy-path document. -/
theorem record_price_bounds_witness :
    (⟨1, 2, 3, 4, ⟨"Wireless Mouse", "$19.99", "a.jpg"⟩⟩ : PassEntry) ∈
      (runPassFull happyDoc).1 ∧
    ("$19.99" : String) = jsTrim (elemAt happyDoc 4).text ∧
    1 ≤ ("$19.99" : String).length ∧ ("$19.99" : String).length ≤ 50 :=
  ⟨by decide, record_price_bounds happyDoc
    ⟨1, 2, 3, 4, ⟨"Wireless Mouse", "$19.99", "a.jpg"⟩⟩ (by decide)⟩
